import Mathlib

/-!
Shallow embedding of `src/bp_app.py`, a streamlit blood-pressure tracking app
backed by a flat CSV store, together with theorems checking the specification's
claims against it.

Modelling conventions:
* A timestamp (`datetime.datetime` in the source) is a number of minutes since
  an arbitrary epoch (`Nat`); the calendar date is `dt / 1440` and the hour of
  day is `dt % 1440 / 60`, so ordering, `dt.date` and `dt.hour` all transfer.
* A pandas cell value for the numeric columns is `Option ℚ`: `none` is NaN
  (pandas' missing value), `some q` a finite numeric value.  The notes column
  is `Option String`: `none` is NaN, `some s` a Python string.
* A CSV file is modelled at token level: each cell is either a serialized
  datetime (`Cell.dt`), a numeric literal (`Cell.num`), non-numeric text
  (`Cell.text`), or an empty field (`Cell.empty`).  `pd.read_csv` turns empty
  fields (including quoted empty strings) and its default `na_values`
  sentinel tokens (`NA`, `NaN`, `null`, ...) into NaN, and
  `pd.to_numeric(errors="coerce")` turns anything non-numeric into NaN.
* The file system holds at most the one store file `bp_readings.csv`, so the
  persistent state is `Option Csv` (`none` = the file does not exist).
-/

namespace BpApp

/-- Minutes per calendar day; timestamps are minutes since an epoch. -/
def minutesPerDay : Nat := 1440

/-- `dt.date` of the source: the calendar day of a timestamp. -/
def dateOf (dt : Nat) : Nat := dt / minutesPerDay

/-- `dt.hour` of the source: the hour of day (0..23) of a timestamp. -/
def hourOf (dt : Nat) : Nat := dt % minutesPerDay / 60

/-- One row of the in-memory dataframe: columns
`datetime, systolic, diastolic, pulse, notes` (src/bp_app.py line 18). -/
structure Row where
  datetime : Nat
  systolic : Option ℚ
  diastolic : Option ℚ
  pulse : Option ℚ
  notes : Option String
  deriving DecidableEq, Repr

/-- One serialized CSV cell, at token level. -/
inductive Cell where
  | dt (n : Nat)
  | num (q : ℚ)
  | text (s : String)
  | empty
  deriving DecidableEq, Repr

/-- A CSV file: a header line and data rows. -/
structure Csv where
  header : List String
  rows : List (List Cell)
  deriving DecidableEq, Repr

/-- `pd.to_numeric(col, errors="coerce")` on one cell: numeric literals keep
their value, everything else (non-numeric text, empty fields, datetimes)
becomes NaN; no exception is ever raised (src/bp_app.py lines 25-26). -/
def toNumeric : Cell → Option ℚ
  | Cell.num q => some q
  | _ => none

/-- The default `na_values` sentinels of `pd.read_csv`: a cell holding exactly
one of these strings (or nothing) is read back as NaN. -/
def naTokens : List String :=
  ["", "#N/A", "#N/A N/A", "#NA", "-1.#IND", "-1.#QNAN", "-NaN", "-nan",
    "1.#IND", "1.#QNAN", "<NA>", "N/A", "NA", "NULL", "NaN", "None", "n/a",
    "nan", "null"]

/-- Reading the notes column: `pd.read_csv` yields the cell's text, with empty
fields (including quoted empty strings) and the default NA sentinel tokens
read back as NaN. -/
def notesOfCell : Cell → Option String
  | Cell.text s => if s ∈ naTokens then none else some s
  | _ => none

/-- Parsing one CSV data row as `load_data` does: the datetime column must be
a well-formed datetime (`pd.to_datetime` raises otherwise, and a row of the
wrong width fails at `read_csv`), the three numeric columns are coerced with
`errors="coerce"`, and notes are kept as text. -/
def parseRow : List Cell → Except String Row
  | [Cell.dt n, c2, c3, c4, c5] =>
      Except.ok ⟨n, toNumeric c2, toNumeric c3, toNumeric c4, notesOfCell c5⟩
  | _ => Except.error "cannot parse row"

/-- Parsing all data rows; the first failure aborts the load. -/
def parseTable : List (List Cell) → Except String (List Row)
  | [] => Except.ok []
  | r :: rest =>
      match parseRow r, parseTable rest with
      | Except.ok row, Except.ok t => Except.ok (row :: t)
      | Except.error e, _ => Except.error e
      | _, Except.error e => Except.error e

/-- The store's column names (src/bp_app.py line 18). -/
def storeColumns : List String := ["datetime", "systolic", "diastolic", "pulse", "notes"]

/-- The empty store written when the CSV file is missing. -/
def emptyCsv : Csv := ⟨storeColumns, []⟩

/-- `pd.read_csv` followed by the type coercions of `load_data`
(src/bp_app.py lines 21-27). -/
def loadTable (csv : Csv) : Except String (List Row) := parseTable csv.rows

/-- `load_data` (src/bp_app.py lines 16-27): when the file is missing, create
and persist an empty store and return the empty table; otherwise read and
coerce the file.  Returns the new file-system state and the result. -/
def load_data (fs : Option Csv) : Option Csv × Except String (List Row) :=
  match fs with
  | none => (some emptyCsv, Except.ok [])
  | some csv => (some csv, loadTable csv)

/-- Serializing one numeric cell with `df.to_csv`: NaN becomes an empty
field, a numeric value its literal. -/
def renderNum : Option ℚ → Cell
  | some q => Cell.num q
  | none => Cell.empty

/-- Serializing one notes cell with `df.to_csv`: NaN and the empty string
both become an empty field, other text is written as is. -/
def renderNotes : Option String → Cell
  | some s => if s = "" then Cell.empty else Cell.text s
  | none => Cell.empty

/-- Serializing one dataframe row with `df.to_csv`. -/
def renderRow (r : Row) : List Cell :=
  [Cell.dt r.datetime, renderNum r.systolic, renderNum r.diastolic,
    renderNum r.pulse, renderNotes r.notes]

/-- `save_data` (src/bp_app.py lines 29-30): write the dataframe back to the
CSV file, header plus one line per row, no index column. -/
def save_data (t : List Row) : Csv := ⟨storeColumns, t.map renderRow⟩

/-- Python's `int(...)` on a numeric value: truncation toward zero. -/
def pyInt (q : ℚ) : Int := Int.tdiv q.num q.den

/-- The row `add_reading` builds (src/bp_app.py lines 34-40). -/
def newRow (dt : Nat) (sys dia pulse : ℚ) (notesStr : String) : Row :=
  ⟨dt, some ((pyInt sys : Int) : ℚ), some ((pyInt dia : Int) : ℚ),
    some ((pyInt pulse : Int) : ℚ), some notesStr⟩

/-- `add_reading` (src/bp_app.py lines 32-43): load the store, append one new
row, persist, and return the new dataframe.  An exception from `load_data`
propagates and nothing is written. -/
def add_reading (fs : Option Csv) (dt : Nat) (sys dia pulse : ℚ) (notesStr : String) :
    Option Csv × Except String (List Row) :=
  match load_data fs with
  | (fs1, Except.error e) => (fs1, Except.error e)
  | (_, Except.ok t) =>
      let t2 := t ++ [newRow dt sys dia pulse notesStr]
      (some (save_data t2), Except.ok t2)

/-- `validate` (src/bp_app.py lines 45-49): emit a warning for each value
outside its sanity range; nothing else happens. -/
def validate (sys dia pulse : ℚ) : List String :=
  (if 50 ≤ sys ∧ sys ≤ 250 then [] else ["Systolic looks unusual. Check entry."]) ++
  (if 30 ≤ dia ∧ dia ≤ 150 then [] else ["Diastolic looks unusual. Check entry."]) ++
  (if 30 ≤ pulse ∧ pulse ≤ 200 then [] else ["Pulse looks unusual. Check entry."])

/-- The `Save reading` button handler (src/bp_app.py lines 70-74): run
`validate` (warnings only), then unconditionally `add_reading`. -/
def save_reading_handler (fs : Option Csv) (dt : Nat) (sys dia pulse : ℚ)
    (notesStr : String) :
    List String × (Option Csv × Except String (List Row)) :=
  (validate sys dia pulse, add_reading fs dt sys dia pulse notesStr)

/-- The time-of-day filter choices (src/bp_app.py line 89). -/
inductive TimeOfDay where
  | all
  | am
  | pm
  deriving DecidableEq, Repr

/-- The filter mask (src/bp_app.py lines 93-97): date within the inclusive
range, and the AM/PM refinement on the hour. -/
def passesFilter (startD endD : Nat) (tod : TimeOfDay) (r : Row) : Bool :=
  (decide (startD ≤ dateOf r.datetime) && decide (dateOf r.datetime ≤ endD)) &&
  (match tod with
   | TimeOfDay.all => true
   | TimeOfDay.am => decide (hourOf r.datetime < 12)
   | TimeOfDay.pm => decide (12 ≤ hourOf r.datetime))

/-- Ordering rows by timestamp, the key of `sort_values("datetime")`. -/
def byDatetime (a b : Row) : Prop := a.datetime ≤ b.datetime

instance : DecidableRel byDatetime :=
  fun a b => inferInstanceAs (Decidable (a.datetime ≤ b.datetime))

instance : IsTotal Row byDatetime := ⟨fun a b => Nat.le_total a.datetime b.datetime⟩

instance : IsTrans Row byDatetime := ⟨fun _ _ _ h1 h2 => Nat.le_trans h1 h2⟩

/-- The filtered view (src/bp_app.py line 98):
`df.loc[mask].copy().sort_values("datetime")`. -/
def filterView (df : List Row) (startD endD : Nat) (tod : TimeOfDay) : List Row :=
  List.insertionSort byDatetime (df.filter (passesFilter startD endD tod))

/-- The `Save edits` handler (src/bp_app.py lines 108-114):
`df.merge(edited_view, on=[all five columns], how="right")`.  With every
column a join key, the result has one group per row of `edited_view`, in
`edited_view` order: `k` copies when the row matches `k` rows of `df`, one
copy (no NaN columns remain to fill) when it matches none. -/
def save_edits (df edited_view : List Row) : List Row :=
  edited_view.flatMap (fun r =>
    match df.count r with
    | 0 => [r]
    | Nat.succ k => List.replicate (Nat.succ k) r)

/-- Pandas column `.mean()`: NaN cells are skipped; an empty or all-NaN
column has mean NaN. -/
def colMean (xs : List (Option ℚ)) : Option ℚ :=
  let ys := xs.filterMap id
  if ys = [] then none else some (ys.sum / (ys.length : ℚ))

/-- The readings of a view falling on calendar day `d`
(the groups of `daily.groupby("date")`, src/bp_app.py line 132). -/
def readingsOn (view : List Row) (d : Nat) : List Row :=
  view.filter (fun r => decide (dateOf r.datetime = d))

/-- The distinct dates of a view in ascending order: `groupby` sorts its
group keys, and `daily_avg` is subsequently `sort_index`ed
(src/bp_app.py lines 132-139). -/
def sortedDates (view : List Row) : List Nat :=
  List.insertionSort (· ≤ ·) ((view.map (fun r => dateOf r.datetime)).dedup)

/-- `daily_avg` (src/bp_app.py lines 125-139): one row per distinct date in
ascending order, holding the per-date means of systolic, diastolic and pulse. -/
def daily_avg (view : List Row) : List (Nat × Option ℚ × Option ℚ × Option ℚ) :=
  (sortedDates view).map (fun d =>
    (d, colMean ((readingsOn view d).map Row.systolic),
        colMean ((readingsOn view d).map Row.diastolic),
        colMean ((readingsOn view d).map Row.pulse)))

/-- Arithmetic mean of a list of rationals. -/
def meanQ (ys : List ℚ) : ℚ := ys.sum / (ys.length : ℚ)

/-- `daily_avg[[...]].rolling(f"{rolling_days}D").mean()` on one metric
column (src/bp_app.py line 140): a time-based rolling window over the
date-indexed samples.  Offset windows are closed on the right: at index
`t` the window is the half-open interval `(t - w, t]` of dates, and with
`min_periods = 1` (the offset-window default) the sample at `t` itself
always keeps the window non-empty. -/
def rollingMean (w : Nat) (samples : List (Nat × ℚ)) : List (Nat × ℚ) :=
  samples.map (fun p =>
    (p.1,
      meanQ ((samples.filter
        (fun q => decide (p.1 < q.1 + w) && decide (q.1 ≤ p.1))).map Prod.snd)))

/-- Modelled from the spec's words, for comparison with `rollingMean`: the
samples lying in the trailing window of `w` days ending at day `t`, that is
with date between `t - (w - 1)` and `t` inclusive. -/
def trailingWindowSpec (w t : Nat) (samples : List (Nat × ℚ)) : List (Nat × ℚ) :=
  samples.filter (fun q => decide (t - (w - 1) ≤ q.1) && decide (q.1 ≤ t))

/-- Pandas column `.max()` over the non-NaN cells: `none` when there are
none, otherwise the running binary maximum. -/
def listMax : List ℚ → Option ℚ
  | [] => none
  | [x] => some x
  | x :: y :: xs =>
      match listMax (y :: xs) with
      | some m => some (max x m)
      | none => some x

/-- Pandas column `.max()`: NaN cells are skipped. -/
def colMax (xs : List (Option ℚ)) : Option ℚ := listMax (xs.filterMap id)

/-- The contents of the PDF report's summary block
(src/bp_app.py lines 245-256). -/
structure ReportSummary where
  avgSys : Option ℚ
  avgDia : Option ℚ
  avgPulse : Option ℚ
  maxSys : Option ℚ
  maxDia : Option ℚ
  maxPulse : Option ℚ
  readingCount : Nat
  latestNotes : Option String
  deriving DecidableEq, Repr

/-- The `Generate PDF report` handler (src/bp_app.py lines 219-259): sort the
whole store by datetime, coerce the metric columns, and summarize means,
maxima, the row count and, when requested, the last row's notes (included
only when they are a non-empty string). -/
def generate_report (df : List Row) (includeLatest : Bool) : ReportSummary :=
  let view := List.insertionSort byDatetime df
  { avgSys := colMean (view.map Row.systolic),
    avgDia := colMean (view.map Row.diastolic),
    avgPulse := colMean (view.map Row.pulse),
    maxSys := colMax (view.map Row.systolic),
    maxDia := colMax (view.map Row.diastolic),
    maxPulse := colMax (view.map Row.pulse),
    readingCount := view.length,
    latestNotes :=
      if includeLatest then
        match view.getLast? with
        | some r =>
            match r.notes with
            | some s => if s = "" then none else some s
            | none => none
        | none => none
      else none }

/-- Shape of a CSV data row that `read_csv`/`to_datetime` accept: five cells,
the first a well-formed datetime. -/
def wellShaped (csv : Csv) : Prop :=
  ∀ row ∈ csv.rows, ∃ n c2 c3 c4 c5, row = [Cell.dt n, c2, c3, c4, c5]

/-! ### Helper lemmas -/

theorem notesOfCell_clean (c : Cell) :
    ∀ s, notesOfCell c = some s → s ∉ naTokens := by
  intro s hs
  cases c with
  | text s' =>
      by_cases h : s' ∈ naTokens
      · simp [notesOfCell, h] at hs
      · simp only [notesOfCell, if_neg h, Option.some.injEq] at hs
        subst hs
        exact h
  | dt n => simp [notesOfCell] at hs
  | num q => simp [notesOfCell] at hs
  | empty => simp [notesOfCell] at hs

theorem toNumeric_renderNum (o : Option ℚ) : toNumeric (renderNum o) = o := by
  cases o <;> rfl

theorem notesOfCell_renderNotes (o : Option String)
    (h : ∀ s, o = some s → s ∉ naTokens) : notesOfCell (renderNotes o) = o := by
  cases o with
  | none => rfl
  | some s =>
      have hna := h s rfl
      have hne : s ≠ "" := by
        intro he
        subst he
        exact hna (by decide)
      simp only [renderNotes, if_neg hne, notesOfCell, if_neg hna]

theorem parseRow_renderRow (r : Row) (h : ∀ s, r.notes = some s → s ∉ naTokens) :
    parseRow (renderRow r) = Except.ok r := by
  show Except.ok (⟨r.datetime, toNumeric (renderNum r.systolic),
      toNumeric (renderNum r.diastolic), toNumeric (renderNum r.pulse),
      notesOfCell (renderNotes r.notes)⟩ : Row) = Except.ok r
  rw [toNumeric_renderNum, toNumeric_renderNum, toNumeric_renderNum,
    notesOfCell_renderNotes r.notes h]

theorem parseRow_ok_notes (cells : List Cell) (r : Row)
    (h : parseRow cells = Except.ok r) : ∀ s, r.notes = some s → s ∉ naTokens := by
  unfold parseRow at h
  split at h
  · cases h
    exact notesOfCell_clean _
  · cases h

theorem parseTable_ok_notes (rows : List (List Cell)) (t : List Row)
    (h : parseTable rows = Except.ok t) :
    ∀ r ∈ t, ∀ s, r.notes = some s → s ∉ naTokens := by
  induction rows generalizing t with
  | nil =>
      cases h
      intro r hr
      cases hr
  | cons c rest ih =>
      unfold parseTable at h
      split at h
      · cases h
        intro r hr
        rcases List.mem_cons.mp hr with rfl | hr2
        · exact parseRow_ok_notes c r (by assumption)
        · exact ih _ (by assumption) r hr2
      · cases h
      · cases h

theorem parseTable_render (l : List Row)
    (h : ∀ r ∈ l, ∀ s, r.notes = some s → s ∉ naTokens) :
    parseTable (l.map renderRow) = Except.ok l := by
  induction l with
  | nil => rfl
  | cons r rest ih =>
      have hr := parseRow_renderRow r (h r (List.mem_cons_self r rest))
      have hrest := ih (fun x hx => h x (List.mem_cons_of_mem _ hx))
      simp only [List.map_cons]
      unfold parseTable
      rw [hr, hrest]

/-! ### Claim theorems -/

/-- C1: the claim that saving edits only touches the rows shown in the
filtered view and leaves every out-of-filter row in the persisted store is
violated by the code: `df.merge(edited_view, how="right")` keeps only the
rows of the edited (filtered) view, so here the unedited day-1 row `r2`,
filtered out by the date range, disappears from the saved dataframe. -/
theorem save_edits_drops_rows_outside_filter :
    let r1 : Row := ⟨480, some 120, some 80, some 60, none⟩
    let r2 : Row := ⟨1980, some 130, some 85, some 65, none⟩
    let df : List Row := [r1, r2]
    let view := filterView df 0 0 TimeOfDay.all
    view = [r1] ∧ save_edits df view = [r1] ∧
      r2 ∈ df ∧ r2 ∉ save_edits df view := by decide

/-- C8: when the store file is missing, `load_data` does not fail: it writes
an empty store whose header is exactly
`datetime, systolic, diastolic, pulse, notes` and returns the empty table. -/
theorem load_data_missing_file :
    load_data none =
      (some ⟨["datetime", "systolic", "diastolic", "pulse", "notes"], []⟩,
        Except.ok []) := rfl

/-- C10: loading a store and saving the result straight back (which the page
does on every render, src/bp_app.py lines 116-121) round-trips: re-parsing
the rewritten file gives back exactly the table that was loaded. -/
theorem load_save_roundtrip (csv : Csv) (t : List Row)
    (h : (load_data (some csv)).2 = Except.ok t) :
    (load_data (some (save_data t))).2 = Except.ok t := by
  simp only [load_data, loadTable, save_data] at h ⊢
  exact parseTable_render t (parseTable_ok_notes csv.rows t h)

/-- Witness for C10 at a concrete one-row store. -/
theorem load_save_roundtrip_witness :
    (load_data (some ⟨storeColumns,
        [[Cell.dt 480, Cell.num 120, Cell.num 80, Cell.num 60, Cell.text "ok"]]⟩)).2 =
      Except.ok [⟨480, some 120, some 80, some 60, some "ok"⟩] ∧
    (load_data (some (save_data [⟨480, some 120, some 80, some 60, some "ok"⟩]))).2 =
      Except.ok [⟨480, some 120, some 80, some 60, some "ok"⟩] :=
  ⟨rfl,
    load_save_roundtrip
      ⟨storeColumns, [[Cell.dt 480, Cell.num 120, Cell.num 80, Cell.num 60, Cell.text "ok"]]⟩
      [⟨480, some 120, some 80, some 60, some "ok"⟩] rfl⟩

theorem add_reading_eq (fs : Option Csv) (t : List Row) (dtv : Nat)
    (sys dia pulse : ℚ) (notesStr : String)
    (hload : (load_data fs).2 = Except.ok t) :
    add_reading fs dtv sys dia pulse notesStr =
      (some (save_data (t ++ [newRow dtv sys dia pulse notesStr])),
        Except.ok (t ++ [newRow dtv sys dia pulse notesStr])) := by
  cases fs with
  | none =>
      simp only [load_data] at hload
      cases hload
      rfl
  | some csv =>
      simp only [load_data] at hload
      simp [add_reading, load_data, hload]

/-- C4: `add_reading` appends exactly one row — the given timestamp, the three
values coerced with `int(...)`, the notes string — after the old rows, alters
no old row, and persists the result: the written CSV holds the old rows'
serialization, unchanged and in their original order, followed by the one new
row's serialization.  (A later `load_data` maps empty or NA-sentinel notes of
the written row back to NaN, so reload-identity of the notes is no part of
this claim; see `load_save_roundtrip` for the loaded-table round trip.) -/
theorem add_reading_appends (fs : Option Csv) (t : List Row) (dtv : Nat)
    (sys dia pulse : ℚ) (notesStr : String)
    (hload : (load_data fs).2 = Except.ok t) :
    newRow dtv sys dia pulse notesStr =
      ⟨dtv, some ((pyInt sys : Int) : ℚ), some ((pyInt dia : Int) : ℚ),
        some ((pyInt pulse : Int) : ℚ), some notesStr⟩ ∧
    add_reading fs dtv sys dia pulse notesStr =
      (some (save_data (t ++ [newRow dtv sys dia pulse notesStr])),
        Except.ok (t ++ [newRow dtv sys dia pulse notesStr])) ∧
    (t ++ [newRow dtv sys dia pulse notesStr]).take t.length = t ∧
    (save_data (t ++ [newRow dtv sys dia pulse notesStr])).rows =
      t.map renderRow ++ [renderRow (newRow dtv sys dia pulse notesStr)] := by
  refine ⟨rfl, add_reading_eq fs t dtv sys dia pulse notesStr hload, List.take_left t _, ?_⟩
  simp [save_data]

/-- Witness for C4 on a concrete non-empty store, with the notes string `"NA"`
— a pandas NA sentinel — exercising the claim's full quantifier over notes. -/
theorem add_reading_appends_witness :
    ((load_data (some ⟨storeColumns,
        [[Cell.dt 480, Cell.num 120, Cell.num 80, Cell.num 60, Cell.empty]]⟩)).2 =
      Except.ok [⟨480, some 120, some 80, some 60, none⟩]) ∧
    (add_reading (some ⟨storeColumns,
        [[Cell.dt 480, Cell.num 120, Cell.num 80, Cell.num 60, Cell.empty]]⟩)
        2000 131 79 66 "NA" =
      (some (save_data ([⟨480, some 120, some 80, some 60, none⟩] ++ [newRow 2000 131 79 66 "NA"])),
        Except.ok ([⟨480, some 120, some 80, some 60, none⟩] ++ [newRow 2000 131 79 66 "NA"]))) ∧
    (save_data ([⟨480, some 120, some 80, some 60, none⟩] ++ [newRow 2000 131 79 66 "NA"])).rows =
      [⟨480, some 120, some 80, some 60, none⟩].map renderRow ++
        [renderRow (newRow 2000 131 79 66 "NA")] :=
  ⟨rfl,
    (add_reading_appends
      (some ⟨storeColumns, [[Cell.dt 480, Cell.num 120, Cell.num 80, Cell.num 60, Cell.empty]]⟩)
      [⟨480, some 120, some 80, some 60, none⟩] 2000 131 79 66 "NA" rfl).2.1,
    (add_reading_appends
      (some ⟨storeColumns, [[Cell.dt 480, Cell.num 120, Cell.num 80, Cell.num 60, Cell.empty]]⟩)
      [⟨480, some 120, some 80, some 60, none⟩] 2000 131 79 66 "NA" rfl).2.2.2⟩

/-- C9: validation never blocks a save.  For any values the input widgets
accept (systolic 0-300, diastolic 0-200, pulse 0-250), the save handler
runs `validate` — which only produces warnings, and does produce one for
each value outside its sanity range — and still persists the appended
reading unconditionally. -/
theorem validate_never_blocks (fs : Option Csv) (t : List Row) (dtv : Nat)
    (sys dia pulse : ℚ) (notesStr : String)
    (hsys : 0 ≤ sys ∧ sys ≤ 300) (hdia : 0 ≤ dia ∧ dia ≤ 200)
    (hpulse : 0 ≤ pulse ∧ pulse ≤ 250)
    (hload : (load_data fs).2 = Except.ok t) :
    save_reading_handler fs dtv sys dia pulse notesStr =
      (validate sys dia pulse,
        (some (save_data (t ++ [newRow dtv sys dia pulse notesStr])),
          Except.ok (t ++ [newRow dtv sys dia pulse notesStr]))) ∧
    (¬(50 ≤ sys ∧ sys ≤ 250) → validate sys dia pulse ≠ []) ∧
    (¬(30 ≤ dia ∧ dia ≤ 150) → validate sys dia pulse ≠ []) ∧
    (¬(30 ≤ pulse ∧ pulse ≤ 200) → validate sys dia pulse ≠ []) := by
  refine ⟨?_, ?_, ?_, ?_⟩
  · simp only [save_reading_handler,
      add_reading_eq fs t dtv sys dia pulse notesStr hload]
  · intro h
    simp [validate, h]
  · intro h
    simp [validate, h]
  · intro h
    simp [validate, h]

/-- Witness for C9 at an out-of-range systolic value 300 (widget-allowed,
outside the 50-250 sanity range): a warning is emitted yet the reading is
still appended and persisted. -/
theorem validate_never_blocks_witness :
    ((0:ℚ) ≤ 300 ∧ (300:ℚ) ≤ 300) ∧ ((0:ℚ) ≤ 80 ∧ (80:ℚ) ≤ 200) ∧
    ((0:ℚ) ≤ 60 ∧ (60:ℚ) ≤ 250) ∧
    (save_reading_handler none 480 300 80 60 "dizzy" =
      (validate 300 80 60,
        (some (save_data ([] ++ [newRow 480 300 80 60 "dizzy"])),
          Except.ok ([] ++ [newRow 480 300 80 60 "dizzy"]))) ∧
      (¬((50:ℚ) ≤ 300 ∧ (300:ℚ) ≤ 250) → validate 300 80 60 ≠ [])) :=
  ⟨by norm_num, by norm_num, by norm_num,
    by
      have h := validate_never_blocks none [] 480 300 80 60 "dizzy"
        (by norm_num) (by norm_num) (by norm_num) rfl
      exact ⟨h.1, h.2.1⟩⟩

/-- C5: for any store and filter choice, the filtered view holds exactly the
readings (with multiplicity) whose date lies inclusively between the start
and end dates and whose hour respects the AM (< 12) / PM (≥ 12) choice, and
it is sorted in ascending datetime order. -/
theorem filterView_exact (df : List Row) (s e : Nat) (tod : TimeOfDay) :
    List.Perm (filterView df s e tod)
      (df.filter (fun r => decide (s ≤ dateOf r.datetime ∧ dateOf r.datetime ≤ e ∧
        (tod = TimeOfDay.am → hourOf r.datetime < 12) ∧
        (tod = TimeOfDay.pm → 12 ≤ hourOf r.datetime)))) ∧
    List.Sorted byDatetime (filterView df s e tod) := by
  have heq : df.filter (passesFilter s e tod) =
      df.filter (fun r => decide (s ≤ dateOf r.datetime ∧ dateOf r.datetime ≤ e ∧
        (tod = TimeOfDay.am → hourOf r.datetime < 12) ∧
        (tod = TimeOfDay.pm → 12 ≤ hourOf r.datetime))) := by
    refine List.filter_congr (fun r _ => ?_)
    rw [Bool.eq_iff_iff]
    cases tod <;> simp [passesFilter] <;> tauto
  constructor
  · unfold filterView
    rw [heq]
    exact List.perm_insertionSort byDatetime _
  · exact List.sorted_insertionSort byDatetime _

theorem parseTable_wellShaped (rows : List (List Cell))
    (h : ∀ row ∈ rows, ∃ n c2 c3 c4 c5, row = [Cell.dt n, c2, c3, c4, c5]) :
    ∃ t, parseTable rows = Except.ok t ∧
      List.Forall₂ (fun (row : List Cell) (r : Row) =>
        ∀ n c2 c3 c4 c5, row = [Cell.dt n, c2, c3, c4, c5] →
          r = ⟨n, toNumeric c2, toNumeric c3, toNumeric c4, notesOfCell c5⟩) rows t := by
  induction rows with
  | nil => exact ⟨[], rfl, List.Forall₂.nil⟩
  | cons row rest ih =>
      obtain ⟨n, c2, c3, c4, c5, rfl⟩ := h row (List.mem_cons_self row rest)
      obtain ⟨t, ht, hf⟩ := ih (fun x hx => h x (List.mem_cons_of_mem _ hx))
      refine ⟨⟨n, toNumeric c2, toNumeric c3, toNumeric c4, notesOfCell c5⟩ :: t, ?_, ?_⟩
      · unfold parseTable
        rw [ht]
        rfl
      · refine List.Forall₂.cons (fun n' c2' c3' c4' c5' heq => ?_) hf
        simp only [List.cons.injEq, Cell.dt.injEq, and_true] at heq
        obtain ⟨rfl, rfl, rfl, rfl, rfl⟩ := heq
        rfl

/-- C6: on any CSV whose rows have the store's shape, `load_data` succeeds no
matter what the numeric cells hold: `to_numeric(errors="coerce")` turns every
non-numeric text or empty cell into NaN (`none`) and keeps the value of every
numeric cell, row by row. -/
theorem load_data_coerces (csv : Csv) (h : wellShaped csv) :
    (∀ s, toNumeric (Cell.text s) = none) ∧ toNumeric Cell.empty = none ∧
    (∀ q, toNumeric (Cell.num q) = some q) ∧
    ∃ t, (load_data (some csv)).2 = Except.ok t ∧
      List.Forall₂ (fun (row : List Cell) (r : Row) =>
        ∀ n c2 c3 c4 c5, row = [Cell.dt n, c2, c3, c4, c5] →
          r.systolic = toNumeric c2 ∧ r.diastolic = toNumeric c3 ∧
            r.pulse = toNumeric c4) csv.rows t := by
  refine ⟨fun s => rfl, rfl, fun q => rfl, ?_⟩
  obtain ⟨t, ht, hf⟩ := parseTable_wellShaped csv.rows h
  refine ⟨t, ht, hf.imp ?_⟩
  intro row r hr n c2 c3 c4 c5 heq
  rw [hr n c2 c3 c4 c5 heq]
  exact ⟨rfl, rfl, rfl⟩

/-- Witness for C6: a store row whose systolic cell is the non-numeric text
`"abc"` and whose pulse cell is empty loads without error, with those cells
coerced to NaN and the numeric diastolic cell kept. -/
theorem load_data_coerces_witness :
    wellShaped ⟨storeColumns, [[Cell.dt 480, Cell.text "abc", Cell.num 80,
        Cell.empty, Cell.empty]]⟩ ∧
    ∃ t, (load_data (some ⟨storeColumns, [[Cell.dt 480, Cell.text "abc", Cell.num 80,
        Cell.empty, Cell.empty]]⟩)).2 = Except.ok t ∧
      List.Forall₂ (fun (row : List Cell) (r : Row) =>
        ∀ n c2 c3 c4 c5, row = [Cell.dt n, c2, c3, c4, c5] →
          r.systolic = toNumeric c2 ∧ r.diastolic = toNumeric c3 ∧
            r.pulse = toNumeric c4)
        [[Cell.dt 480, Cell.text "abc", Cell.num 80, Cell.empty, Cell.empty]] t := by
  have hshape : wellShaped ⟨storeColumns, [[Cell.dt 480, Cell.text "abc", Cell.num 80,
      Cell.empty, Cell.empty]]⟩ := by
    intro row hr
    simp only [List.mem_singleton] at hr
    subst hr
    exact ⟨480, Cell.text "abc", Cell.num 80, Cell.empty, Cell.empty, rfl⟩
  exact ⟨hshape, (load_data_coerces _ hshape).2.2.2⟩

/-- C2: for every position in the rolling-average series (computed identically
for each charted metric), the value at a sample equals the arithmetic mean of
the metric over the samples in the trailing window of `w` days ending at that
sample's date. -/
theorem rollingMean_eq_trailing_mean (w : Nat) (samples : List (Nat × ℚ)) (i : Nat)
    (hw : 1 ≤ w) :
    (rollingMean w samples)[i]? = (samples[i]?).map (fun p =>
      (p.1, meanQ ((trailingWindowSpec w p.1 samples).map Prod.snd))) := by
  unfold rollingMean
  rw [List.getElem?_map]
  refine Option.map_congr (fun p _ => ?_)
  have hfil : samples.filter (fun q => decide (p.1 < q.1 + w) && decide (q.1 ≤ p.1)) =
      trailingWindowSpec w p.1 samples := by
    unfold trailingWindowSpec
    refine List.filter_congr (fun q _ => ?_)
    rw [Bool.eq_iff_iff]
    simp only [Bool.and_eq_true, decide_eq_true_eq]
    omega
  rw [hfil]

/-- Witness for C2: a 2-day rolling window over three daily samples. -/
theorem rollingMean_eq_trailing_mean_witness :
    1 ≤ 2 ∧
    (rollingMean 2 [(0, (1 : ℚ)), (1, 3), (3, 5)])[1]? = some (1, 2) :=
  ⟨by norm_num, by
    rw [rollingMean_eq_trailing_mean 2 [(0, (1 : ℚ)), (1, 3), (3, 5)] 1 (by norm_num)]
    norm_num [trailingWindowSpec, meanQ, List.filter]⟩

theorem length_filterMap_id_all_some (xs : List (Option ℚ))
    (h : ∀ x ∈ xs, x.isSome) : (xs.filterMap id).length = xs.length := by
  induction xs with
  | nil => rfl
  | cons x xs ih =>
      obtain ⟨y, rfl⟩ := Option.isSome_iff_exists.mp (h x (List.mem_cons_self x xs))
      simp [List.filterMap_cons, ih (fun z hz => h z (List.mem_cons_of_mem _ hz))]

theorem colMean_all_some (xs : List (Option ℚ)) (hne : xs ≠ [])
    (h : ∀ x ∈ xs, x.isSome) :
    colMean xs = some ((xs.filterMap id).sum / (xs.length : ℚ)) := by
  have hlen := length_filterMap_id_all_some xs h
  have hne2 : xs.filterMap id ≠ [] := by
    intro hemp
    apply hne
    rw [hemp] at hlen
    exact List.length_eq_zero.mp hlen.symm
  simp only [colMean]
  rw [if_neg hne2, hlen]

/-- C3: in the daily-averages table of a view, the (unique) entry of each
date `d` having at least one reading holds, for each of systolic, diastolic
and pulse, exactly the sum of that metric over the readings of the view that
fall on `d`, divided by their number. -/
theorem daily_avg_exact (view : List Row) (d : Nat)
    (hne : readingsOn view d ≠ [])
    (hnum : ∀ r ∈ readingsOn view d,
      r.systolic.isSome ∧ r.diastolic.isSome ∧ r.pulse.isSome) :
    (∃ entry ∈ daily_avg view, entry.1 = d) ∧
    ∀ entry ∈ daily_avg view, entry.1 = d →
      entry.2.1 = some (((readingsOn view d).filterMap Row.systolic).sum /
          ((readingsOn view d).length : ℚ)) ∧
      entry.2.2.1 = some (((readingsOn view d).filterMap Row.diastolic).sum /
          ((readingsOn view d).length : ℚ)) ∧
      entry.2.2.2 = some (((readingsOn view d).filterMap Row.pulse).sum /
          ((readingsOn view d).length : ℚ)) := by
  obtain ⟨r, hr⟩ := List.exists_mem_of_ne_nil _ hne
  have hrv : r ∈ view ∧ dateOf r.datetime = d := by
    have := List.mem_filter.mp hr
    exact ⟨this.1, of_decide_eq_true this.2⟩
  have hd : d ∈ sortedDates view := by
    unfold sortedDates
    rw [List.mem_insertionSort, List.mem_dedup]
    exact hrv.2 ▸ List.mem_map_of_mem (fun r => dateOf r.datetime) hrv.1
  have hcomp : ∀ (f : Row → Option ℚ),
      (∀ x ∈ readingsOn view d, (f x).isSome) →
      colMean ((readingsOn view d).map f) =
        some (((readingsOn view d).filterMap f).sum /
          ((readingsOn view d).length : ℚ)) := by
    intro f hall
    have hx : ∀ x ∈ (readingsOn view d).map f, x.isSome := by
      intro x hx
      obtain ⟨r', hr', rfl⟩ := List.mem_map.mp hx
      exact hall r' hr'
    have hnem : (readingsOn view d).map f ≠ [] := by
      simpa [List.map_eq_nil_iff] using hne
    rw [colMean_all_some _ hnem hx, List.filterMap_map, List.length_map]
    rfl
  constructor
  · exact ⟨(d, colMean ((readingsOn view d).map Row.systolic),
        colMean ((readingsOn view d).map Row.diastolic),
        colMean ((readingsOn view d).map Row.pulse)),
      List.mem_map_of_mem _ hd, rfl⟩
  · intro entry hentry h1
    obtain ⟨d', hd', heq⟩ := List.mem_map.mp hentry
    have : d' = d := by rw [← heq] at h1; exact h1
    subst this
    rw [← heq]
    exact ⟨hcomp Row.systolic (fun x hx => (hnum x hx).1),
      hcomp Row.diastolic (fun x hx => (hnum x hx).2.1),
      hcomp Row.pulse (fun x hx => (hnum x hx).2.2)⟩

/-- Witness for C3: two readings on day 0 average to 125/85/65. -/
theorem daily_avg_exact_witness :
    (readingsOn [⟨480, some 120, some 80, some 60, none⟩,
        ⟨500, some 130, some 90, some 70, none⟩] 0 ≠ []) ∧
    (∀ r ∈ readingsOn [⟨480, some 120, some 80, some 60, none⟩,
        ⟨500, some 130, some 90, some 70, none⟩] 0,
      r.systolic.isSome ∧ r.diastolic.isSome ∧ r.pulse.isSome) ∧
    ((∃ entry ∈ daily_avg [⟨480, some 120, some 80, some 60, none⟩,
        ⟨500, some 130, some 90, some 70, none⟩], entry.1 = 0) ∧
      ∀ entry ∈ daily_avg [⟨480, some 120, some 80, some 60, none⟩,
          ⟨500, some 130, some 90, some 70, none⟩], entry.1 = 0 →
        entry.2.1 = some (((readingsOn [⟨480, some 120, some 80, some 60, none⟩,
            ⟨500, some 130, some 90, some 70, none⟩] 0).filterMap Row.systolic).sum /
            ((readingsOn [⟨480, some 120, some 80, some 60, none⟩,
              ⟨500, some 130, some 90, some 70, none⟩] 0).length : ℚ)) ∧
        entry.2.2.1 = some (((readingsOn [⟨480, some 120, some 80, some 60, none⟩,
            ⟨500, some 130, some 90, some 70, none⟩] 0).filterMap Row.diastolic).sum /
            ((readingsOn [⟨480, some 120, some 80, some 60, none⟩,
              ⟨500, some 130, some 90, some 70, none⟩] 0).length : ℚ)) ∧
        entry.2.2.2 = some (((readingsOn [⟨480, some 120, some 80, some 60, none⟩,
            ⟨500, some 130, some 90, some 70, none⟩] 0).filterMap Row.pulse).sum /
            ((readingsOn [⟨480, some 120, some 80, some 60, none⟩,
              ⟨500, some 130, some 90, some 70, none⟩] 0).length : ℚ))) :=
  ⟨by decide, by decide,
    daily_avg_exact [⟨480, some 120, some 80, some 60, none⟩,
      ⟨500, some 130, some 90, some 70, none⟩] 0 (by decide) (by decide)⟩

theorem listMax_isSome (x : ℚ) (xs : List ℚ) : (listMax (x :: xs)).isSome = true := by
  induction xs generalizing x with
  | nil => rfl
  | cons y ys ih =>
      obtain ⟨m, hm⟩ := Option.isSome_iff_exists.mp (ih y)
      simp only [listMax]
      rw [hm]
      rfl

theorem listMax_spec (l : List ℚ) : ∀ m, listMax l = some m → m ∈ l ∧ ∀ v ∈ l, v ≤ m := by
  induction l with
  | nil =>
      intro m hm
      simp [listMax] at hm
  | cons x xs ih =>
      intro m hm
      cases xs with
      | nil =>
          simp only [listMax, Option.some.injEq] at hm
          subst hm
          simp
      | cons y ys =>
          simp only [listMax] at hm
          obtain ⟨m', hm'⟩ := Option.isSome_iff_exists.mp (listMax_isSome y ys)
          rw [hm'] at hm
          simp only [Option.some.injEq] at hm
          subst hm
          obtain ⟨hmem, hbound⟩ := ih m' hm'
          constructor
          · rcases le_total x m' with h | h
            · rw [max_eq_right h]
              exact List.mem_cons_of_mem x hmem
            · rw [max_eq_left h]
              exact List.mem_cons_self x _
          · intro v hv
            rcases List.mem_cons.mp hv with rfl | hv2
            · exact le_max_left v m'
            · exact le_trans (hbound v hv2) (le_max_right x m')

theorem sorted_datetime_le_getLast (l : List Row) :
    ∀ (hl : l ≠ []), List.Sorted byDatetime l →
      ∀ x ∈ l, x.datetime ≤ (l.getLast hl).datetime := by
  induction l with
  | nil => intro hl; exact absurd rfl hl
  | cons a t ih =>
      intro hl hs x hx
      cases t with
      | nil =>
          rcases List.mem_singleton.mp hx with rfl
          exact Nat.le_refl _
      | cons b u =>
          rw [List.sorted_cons] at hs
          have hbu : (b :: u : List Row) ≠ [] := List.cons_ne_nil b u
          have hlast : (a :: b :: u).getLast hl = (b :: u).getLast hbu :=
            List.getLast_cons hbu
          rcases List.mem_cons.mp hx with rfl | hx2
          · rw [hlast]
            exact hs.1 _ (List.getLast_mem hbu)
          · rw [hlast]
            exact ih hbu hs.2 x hx2

/-- C7: for a non-empty store with numeric readings, the PDF report's summary
holds exactly the arithmetic mean of systolic, diastolic and pulse over all
readings, the maximum of each of the three metrics over all readings, the
total number of readings, and — when requested and the latest reading has
non-empty notes — the notes of a reading with maximal timestamp. -/
theorem generate_report_exact (df : List Row) (includeLatest : Bool)
    (hne : df ≠ [])
    (hnum : ∀ r ∈ df, r.systolic.isSome ∧ r.diastolic.isSome ∧ r.pulse.isSome) :
    (generate_report df includeLatest).avgSys =
        some ((df.filterMap Row.systolic).sum / (df.length : ℚ)) ∧
    (generate_report df includeLatest).avgDia =
        some ((df.filterMap Row.diastolic).sum / (df.length : ℚ)) ∧
    (generate_report df includeLatest).avgPulse =
        some ((df.filterMap Row.pulse).sum / (df.length : ℚ)) ∧
    (∃ m, (generate_report df includeLatest).maxSys = some m ∧
      m ∈ df.filterMap Row.systolic ∧ ∀ v ∈ df.filterMap Row.systolic, v ≤ m) ∧
    (∃ m, (generate_report df includeLatest).maxDia = some m ∧
      m ∈ df.filterMap Row.diastolic ∧ ∀ v ∈ df.filterMap Row.diastolic, v ≤ m) ∧
    (∃ m, (generate_report df includeLatest).maxPulse = some m ∧
      m ∈ df.filterMap Row.pulse ∧ ∀ v ∈ df.filterMap Row.pulse, v ≤ m) ∧
    (generate_report df includeLatest).readingCount = df.length ∧
    ∃ latest ∈ df, (∀ r ∈ df, r.datetime ≤ latest.datetime) ∧
      (generate_report df includeLatest).latestNotes =
        (if includeLatest then
          match latest.notes with
          | some s => if s = "" then none else some s
          | none => none
        else none) := by
  have hperm : List.Perm (List.insertionSort byDatetime df) df :=
    List.perm_insertionSort byDatetime df
  have hvne : List.insertionSort byDatetime df ≠ [] := by
    intro hemp
    apply hne
    have := hperm.length_eq
    rw [hemp] at this
    exact List.length_eq_zero.mp this.symm
  have havg : ∀ (f : Row → Option ℚ), (∀ r ∈ df, (f r).isSome) →
      colMean ((List.insertionSort byDatetime df).map f) =
        some ((df.filterMap f).sum / (df.length : ℚ)) := by
    intro f hall
    have hx : ∀ x ∈ (List.insertionSort byDatetime df).map f, x.isSome := by
      intro x hx
      obtain ⟨r', hr', rfl⟩ := List.mem_map.mp hx
      exact hall r' (hperm.mem_iff.mp hr')
    have hnem : (List.insertionSort byDatetime df).map f ≠ [] := by
      simpa [List.map_eq_nil_iff] using hvne
    rw [colMean_all_some _ hnem hx, List.filterMap_map, List.length_map]
    have hp := hperm.filterMap f
    rw [show (id ∘ f) = f from rfl, hp.sum_eq, hperm.length_eq]
  have hmax : ∀ (f : Row → Option ℚ), (∀ r ∈ df, (f r).isSome) →
      ∃ m, colMax ((List.insertionSort byDatetime df).map f) = some m ∧
        m ∈ df.filterMap f ∧ ∀ v ∈ df.filterMap f, v ≤ m := by
    intro f hall
    have hp := hperm.filterMap f
    have hnem : (List.insertionSort byDatetime df).filterMap f ≠ [] := by
      intro hemp
      obtain ⟨r, hr⟩ := List.exists_mem_of_ne_nil df hne
      obtain ⟨y, hy⟩ := Option.isSome_iff_exists.mp (hall r hr)
      have : y ∈ (List.insertionSort byDatetime df).filterMap f :=
        List.mem_filterMap.mpr ⟨r, hperm.mem_iff.mpr hr, hy⟩
      rw [hemp] at this
      cases this
    obtain ⟨x, xs, hxs⟩ := List.exists_cons_of_ne_nil hnem
    have hsome : ∃ m, listMax ((List.insertionSort byDatetime df).filterMap f) = some m := by
      rw [hxs]
      exact Option.isSome_iff_exists.mp (listMax_isSome x xs)
    obtain ⟨m, hm⟩ := hsome
    obtain ⟨hmem, hbound⟩ := listMax_spec _ m hm
    refine ⟨m, ?_, hp.mem_iff.mp hmem, fun v hv => hbound v (hp.mem_iff.mpr hv)⟩
    unfold colMax
    rw [List.filterMap_map]
    exact hm
  refine ⟨havg Row.systolic (fun r hr => (hnum r hr).1),
    havg Row.diastolic (fun r hr => (hnum r hr).2.1),
    havg Row.pulse (fun r hr => (hnum r hr).2.2),
    hmax Row.systolic (fun r hr => (hnum r hr).1),
    hmax Row.diastolic (fun r hr => (hnum r hr).2.1),
    hmax Row.pulse (fun r hr => (hnum r hr).2.2),
    hperm.length_eq, ?_⟩
  refine ⟨(List.insertionSort byDatetime df).getLast hvne,
    hperm.mem_iff.mp (List.getLast_mem hvne), ?_, ?_⟩
  · intro r hr
    exact sorted_datetime_le_getLast _ hvne
      (List.sorted_insertionSort byDatetime df) r (hperm.mem_iff.mpr hr)
  · show (if includeLatest then
        match (List.insertionSort byDatetime df).getLast? with
        | some r =>
            match r.notes with
            | some s => if s = "" then none else some s
            | none => none
        | none => none
      else none) = _
    rw [List.getLast?_eq_getLast _ hvne]

/-- Witness for C7 on a two-reading store with notes on the latest reading. -/
theorem generate_report_exact_witness :
    ([⟨480, some 120, some 80, some 60, none⟩,
        ⟨1980, some 130, some 90, some 70, some "tired"⟩] : List Row) ≠ [] ∧
    (∀ r ∈ ([⟨480, some 120, some 80, some 60, none⟩,
        ⟨1980, some 130, some 90, some 70, some "tired"⟩] : List Row),
      r.systolic.isSome ∧ r.diastolic.isSome ∧ r.pulse.isSome) ∧
    (generate_report [⟨480, some 120, some 80, some 60, none⟩,
        ⟨1980, some 130, some 90, some 70, some "tired"⟩] true).readingCount = 2 ∧
    (∃ latest ∈ ([⟨480, some 120, some 80, some 60, none⟩,
        ⟨1980, some 130, some 90, some 70, some "tired"⟩] : List Row),
      (∀ r ∈ ([⟨480, some 120, some 80, some 60, none⟩,
          ⟨1980, some 130, some 90, some 70, some "tired"⟩] : List Row),
        r.datetime ≤ latest.datetime) ∧
      (generate_report [⟨480, some 120, some 80, some 60, none⟩,
          ⟨1980, some 130, some 90, some 70, some "tired"⟩] true).latestNotes =
        (if true then
          match latest.notes with
          | some s => if s = "" then none else some s
          | none => none
        else none)) := by
  have h := generate_report_exact [⟨480, some 120, some 80, some 60, none⟩,
    ⟨1980, some 130, some 90, some 70, some "tired"⟩] true (by decide) (by decide)
  exact ⟨by decide, by decide, h.2.2.2.2.2.2.1, h.2.2.2.2.2.2.2⟩

end BpApp
